import Mathlib

/-!
Verification of the training-orchestration logic of `bottleneck_networks.py`
(berenslab/sparseBottleneck).

The file shallowly embeds the orchestration code: matrices become lists of
rows over `ℚ`, the keras model/file weight state becomes an association list
from layer names to weights, fit calls and checkpoint configurations become
records transcribed from the call sites, and the training trajectory produced
by the external learning library stays abstract (a list of per-epoch models
with their monitored validation metric).
-/

namespace SparseBottleneck

/-- A numpy 2-D matrix, as a list of rows of rationals. -/
abbrev Mat := List (List ℚ)

/-- Sum of squares of a vector (`np.sum(v**2)` / `tf.reduce_sum(tf.square(v))`). -/
def sumSq (v : List ℚ) : ℚ := (v.map (fun a => a * a)).sum

/-- Squared L2 norm of one row; `np.linalg.norm(w, ord=2, axis=1)` squared. -/
def rowNormSq (r : List ℚ) : ℚ := sumSq r

/-- The L2 norm of one row, `np.linalg.norm(row, ord=2)`, as a real number. -/
noncomputable def rowNorm (r : List ℚ) : ℝ := Real.sqrt (rowNormSq r)

/-- Comparison of indices by their key value, used by `argsort`. -/
def keyLE (keys : List ℚ) (i j : ℕ) : Prop := keys.getD i 0 ≤ keys.getD j 0

instance (keys : List ℚ) : DecidableRel (keyLE keys) := fun i j =>
  inferInstanceAs (Decidable (keys.getD i 0 ≤ keys.getD j 0))

instance (keys : List ℚ) : IsTotal ℕ (keyLE keys) :=
  ⟨fun i j => le_total (keys.getD i 0) (keys.getD j 0)⟩

instance (keys : List ℚ) : IsTrans ℕ (keyLE keys) :=
  ⟨fun _ _ _ h h' => le_trans h h'⟩

/-- `np.argsort(keys)`: the indices `0, …, n-1` sorted so that the key values
are ascending.  (numpy's quicksort and this insertion sort may order tied keys
differently; every property proved below is independent of the tie order.) -/
def argsort (keys : List ℚ) : List ℕ :=
  List.insertionSort (keyLE keys) (List.range keys.length)

/-- `np.argsort(np.linalg.norm(weight, ord=2, axis=1))[-25:]`
(bottleneck_networks.py lines 264–266, 514–516, 656–658): the indices of the
25 rows of the first-layer kernel with the largest L2 norms.  The squared norm
induces the same ordering as the norm, `Real.sqrt` being monotone.
numpy's `[-25:]` on an array of length `n` is `drop (n - 25)`, also when
`n < 25` (ℕ subtraction truncates exactly as numpy clamps). -/
def pruneSelect (weight : Mat) : List ℕ :=
  (argsort (weight.map rowNormSq)).drop (weight.length - 25)

/-- Column restriction `x[:, ind]` of a 2-D numpy array. -/
def selectCols (x : Mat) (ind : List ℕ) : Mat :=
  x.map (fun row => ind.map (fun i => row.getD i 0))

/-- Row restriction `w[ind, :]` of a 2-D numpy array. -/
def selectRows (w : Mat) (ind : List ℕ) : Mat :=
  ind.map (fun i => w.getD i [])

/-- The data the pruned-model fit is called with
(lines 310–312, 560–562, 693–694): the training and validation input matrices
restricted to the selected gene columns. -/
def prunedFitData (weight : Mat) (x_train x_test : Mat) : Mat × Mat :=
  (selectCols x_train (pruneSelect weight), selectCols x_test (pruneSelect weight))

lemma argsort_perm_range (keys : List ℚ) :
    List.Perm (argsort keys) (List.range keys.length) :=
  List.perm_insertionSort _ _

lemma argsort_sorted (keys : List ℚ) :
    (argsort keys).Sorted (keyLE keys) :=
  List.sorted_insertionSort _ _

lemma argsort_length (keys : List ℚ) :
    (argsort keys).length = keys.length := by
  simpa using (argsort_perm_range keys).length_eq

lemma argsort_nodup (keys : List ℚ) : (argsort keys).Nodup :=
  ((argsort_perm_range keys).nodup_iff).mpr (List.nodup_range _)

lemma mem_argsort (keys : List ℚ) {i : ℕ} :
    i ∈ argsort keys ↔ i < keys.length := by
  rw [(argsort_perm_range keys).mem_iff, List.mem_range]

/-- Every index kept by `pruneSelect` is a valid row index, and the kept
indices are distinct. -/
lemma pruneSelect_mem {weight : Mat} {i : ℕ} (h : i ∈ pruneSelect weight) :
    i < weight.length := by
  have : i ∈ argsort (weight.map rowNormSq) :=
    List.mem_of_mem_drop h
  simpa [List.length_map] using (mem_argsort _).mp this

lemma pruneSelect_nodup (weight : Mat) : (pruneSelect weight).Nodup :=
  (argsort_nodup _).sublist (List.drop_sublist _ _)

lemma pruneSelect_length {weight : Mat} (h : 25 ≤ weight.length) :
    (pruneSelect weight).length = 25 := by
  unfold pruneSelect
  rw [List.length_drop, argsort_length, List.length_map]
  omega

lemma getD_map_rowNormSq (weight : Mat) {i : ℕ} (h : i < weight.length) :
    (weight.map rowNormSq).getD i 0 = rowNormSq (weight.getD i []) := by
  rw [List.getD_eq_getElem?_getD, List.getD_eq_getElem?_getD,
    List.getElem?_map, List.getElem?_eq_getElem h]
  rfl

/-- Any index not kept by `pruneSelect` has squared row norm at most that of
every kept index. -/
lemma pruneSelect_dominates {weight : Mat} {i j : ℕ}
    (hi : i ∈ pruneSelect weight) (hj : j < weight.length)
    (hj' : j ∉ pruneSelect weight) :
    rowNormSq (weight.getD j []) ≤ rowNormSq (weight.getD i []) := by
  set keys := weight.map rowNormSq with hkeys
  have hsplit : (argsort keys).take (weight.length - 25) ++ pruneSelect weight
      = argsort keys := by
    simp [pruneSelect, hkeys]
  have hpw : ((argsort keys).take (weight.length - 25)
      ++ pruneSelect weight).Pairwise (keyLE keys) := by
    rw [hsplit]; exact argsort_sorted keys
  have hjmem : j ∈ (argsort keys).take (weight.length - 25) := by
    have : j ∈ argsort keys := by
      rw [mem_argsort]; simpa [hkeys, List.length_map] using hj
    rcases List.mem_append.mp (hsplit ▸ this) with h | h
    · exact h
    · exact absurd h hj'
  have hle : keyLE keys j i :=
    (List.pairwise_append.mp hpw).2.2 j hjmem i hi
  have hjlt : j < weight.length := hj
  have hilt : i < weight.length := pruneSelect_mem hi
  have hkj := getD_map_rowNormSq weight hjlt
  have hki := getD_map_rowNormSq weight hilt
  unfold keyLE at hle
  rwa [hkj, hki] at hle

/-- Squared norms compare the same way L2 norms do. -/
lemma rowNorm_le_rowNorm {r s : List ℚ}
    (h : rowNormSq r ≤ rowNormSq s) : rowNorm r ≤ rowNorm s :=
  Real.sqrt_le_sqrt (by exact_mod_cast h)

/-- C1: in every prune run the 25 retained input features are exactly 25
distinct valid row indices of the first-layer kernel whose rows have the
largest L2 norms (every non-retained row's norm is at most every retained
row's norm), and the pruned model is retrained on the input matrices
restricted to exactly those columns.  Precondition: `input_dim ≥ 25`. -/
theorem C1_prune_retains_top25_features (weight x_train x_test : Mat)
    (h : 25 ≤ weight.length) :
    (pruneSelect weight).length = 25 ∧
    (pruneSelect weight).Nodup ∧
    (∀ i ∈ pruneSelect weight, i < weight.length) ∧
    (∀ i ∈ pruneSelect weight, ∀ j, j < weight.length → j ∉ pruneSelect weight →
      rowNorm (weight.getD j []) ≤ rowNorm (weight.getD i [])) ∧
    prunedFitData weight x_train x_test =
      (selectCols x_train (pruneSelect weight),
       selectCols x_test (pruneSelect weight)) :=
  ⟨pruneSelect_length h, pruneSelect_nodup _, fun _ hi => pruneSelect_mem hi,
    fun _ hi _ hj hj' => rowNorm_le_rowNorm (pruneSelect_dominates hi hj hj'),
    rfl⟩

/-- Witness for C1 at a concrete 25-row kernel. -/
theorem C1_prune_retains_top25_features_witness :
    (pruneSelect (List.replicate 25 ([] : List ℚ))).length = 25 :=
  (C1_prune_retains_top25_features (List.replicate 25 []) [] [] (by decide)).1

/-- The weights of one keras layer: kernel matrix and bias vector. -/
abbrev LayerWeights := Mat × List ℚ

/-- The weight state of a keras model, or of a saved h5 file: layer name ↦
layer weights, in layer order. -/
abbrev WeightFile := List (String × LayerWeights)

/-- Looking a layer up by name in a saved weight file. -/
def lookupLayer (file : WeightFile) (n : String) : Option LayerWeights :=
  (file.find? (fun p => p.1 == n)).map Prod.snd

/-- `model.load_weights(file, by_name=True)`: every layer whose name occurs
in the file takes the file's weights for that name; all other layers keep
their current weights. -/
def loadWeightsByName (model : WeightFile) (file : WeightFile) : WeightFile :=
  model.map (fun p => (p.1, (lookupLayer file p.1).getD p.2))

/-- `model.get_layer(n).set_weights(w)`: replace one named layer's weights. -/
def setLayerWeights (model : WeightFile) (n : String) (w : LayerWeights) :
    WeightFile :=
  model.map (fun p => if p.1 == n then (p.1, w) else p)

/-- Layer names of the regression architectures
(`StraightRegression.__init__` lines 169–189, `FreezeUnfreeze.__init__`
lines 381–402). -/
def regressionLayerNames : List String :=
  ["W1", "W2", "bottleneck", "W4", "W5", "W6_regr"]

/-- Layer names of the classification architecture
(`ClassificationPreTrain.__init__` lines 68–89). -/
def classificationLayerNames : List String :=
  ["W1", "W2", "bottleneck", "W4", "W5", "W6_class"]

/-- Layer names of the pruned rebuild (lines 270–290, 520–540, 662–682). -/
def prunedLayerNames : List String :=
  ["W1_25", "W2", "bottleneck", "W4", "W5", "W6_regr"]

/-- Weight state of the pruned rebuild, transcribing lines 262–294 (and the
identical lines 512–544 and 653–687): `weight`/`bias` are
`saved_model_.get_weights()[0]` and `[1]` (the first layer's kernel and
bias of the saved full-width model `saved`); the fresh six-layer model named
`prunedLayerNames` is loaded from the saved file `by_name`, and then layer
`W1_25` receives `[weight[ind_genes, :], bias]` via `set_weights`. -/
def pruneRebuildWeights (saved : WeightFile) (fresh : List LayerWeights) :
    WeightFile :=
  let weight := (saved.getD 0 ("", ([], []))).2.1
  let bias := (saved.getD 0 ("", ([], []))).2.2
  let model := prunedLayerNames.zip fresh
  let loaded := loadWeightsByName model saved
  setLayerWeights loaded "W1_25" (selectRows weight (pruneSelect weight), bias)

/-- C2: the pruned rebuild's `W1_25` layer holds exactly the selected 25 rows
of the original first-layer kernel together with the original first-layer
bias unmodified, while `W2`, `bottleneck`, `W4`, `W5` and `W6_regr` take
their weights unchanged from the saved full-width model via load-by-name
(the fresh initialisations of those five layers are overwritten, and `W1_25`,
absent from the saved file, is set only by the manual transplant); no other
layer exists, so nothing else is altered. -/
theorem C2_prune_weight_transplantation
    (s0 s1 s2 s3 s4 s5 f0 f1 f2 f3 f4 f5 : LayerWeights) :
    pruneRebuildWeights
      [("W1", s0), ("W2", s1), ("bottleneck", s2), ("W4", s3), ("W5", s4),
       ("W6_regr", s5)]
      [f0, f1, f2, f3, f4, f5] =
    [("W1_25", (selectRows s0.1 (pruneSelect s0.1), s0.2)),
     ("W2", s1), ("bottleneck", s2), ("W4", s3), ("W5", s4),
     ("W6_regr", s5)] := by
  simp [pruneRebuildWeights, prunedLayerNames, loadWeightsByName,
    setLayerWeights, lookupLayer, List.find?]

/-- A step of `StraightRegression.__init__` / `FreezeUnfreeze.__init__`. -/
inductive InitStep
  | buildArch
  | loadPretrained
  | compileModel
deriving DecidableEq

/-- Control flow of `StraightRegression.__init__` (lines 167–194) and
`FreezeUnfreeze.__init__` (lines 379–412): build the architecture, load the
pretrained weights by name if `pre_trained_weights`, then compile. -/
def initSteps (pre_trained_weights : Bool) : List InitStep :=
  [InitStep.buildArch]
    ++ (if pre_trained_weights then [InitStep.loadPretrained] else [])
    ++ [InitStep.compileModel]

/-- C3: with `pre_trained_weights=True` the pretrained file is loaded by
layer name before compilation, and loading a classification pretraining file
(layers `W1,W2,bottleneck,W4,W5,W6_class`) into the fresh regression model
(layers `W1,W2,bottleneck,W4,W5,W6_regr`) replaces the five encoder/decoder
layers with the file's values while `W6_regr` keeps its fresh random
initialisation (`W6_class` matches no layer of the regression model). -/
theorem C3_pretrained_load_by_name
    (r0 r1 r2 r3 r4 r5 c0 c1 c2 c3 c4 c5 : LayerWeights) :
    loadWeightsByName
      [("W1", r0), ("W2", r1), ("bottleneck", r2), ("W4", r3), ("W5", r4),
       ("W6_regr", r5)]
      [("W1", c0), ("W2", c1), ("bottleneck", c2), ("W4", c3), ("W5", c4),
       ("W6_class", c5)] =
    [("W1", c0), ("W2", c1), ("bottleneck", c2), ("W4", c3), ("W5", c4),
     ("W6_regr", r5)] ∧
    initSteps true =
      [InitStep.buildArch, InitStep.loadPretrained, InitStep.compileModel] ∧
    initSteps false = [InitStep.buildArch, InitStep.compileModel] := by
  refine ⟨?_, rfl, rfl⟩
  simp [loadWeightsByName, lookupLayer, List.find?]

/-- Configuration of a `ModelCheckpoint` callback. -/
structure CheckpointCfg where
  monitor : String
  mode : String
  saveBestOnly : Bool
deriving DecidableEq

/-- Checkpoint of `ClassificationPreTrain.train` (lines 117–118). -/
def classificationCheckpoint : CheckpointCfg :=
  ⟨"val_categorical_crossentropy", "min", true⟩

/-- Checkpoint of the first fit of `StraightRegression.train`; lines 229–233,
identical in both branches of `pre_trained_weights`. -/
def straightRegressionCheckpoint : CheckpointCfg :=
  ⟨"val_mean_squared_error", "min", true⟩

/-- Checkpoint of the pruned fit of `StraightRegression.train`
(lines 300–306). -/
def straightRegressionPrunedCheckpoint : CheckpointCfg :=
  ⟨"val_mean_squared_error", "min", true⟩

/-- Checkpoint of the frozen phase of `FreezeUnfreeze.train`
(lines 443–449). -/
def fuPhase1Checkpoint : CheckpointCfg :=
  ⟨"val_mean_squared_error", "min", true⟩

/-- Checkpoint of the unfrozen phase of `FreezeUnfreeze.train`
(lines 473–479). -/
def fuPhase2Checkpoint : CheckpointCfg :=
  ⟨"val_mean_squared_error", "min", true⟩

/-- Checkpoint of the pruned fit of `FreezeUnfreeze.train`
(lines 550–556). -/
def fuPrunedCheckpoint : CheckpointCfg :=
  ⟨"val_mean_squared_error", "min", true⟩

/-- Semantics of `ModelCheckpoint(save_best_only=True, mode='min')` over a
training trajectory (the per-epoch sequence of model states with their
monitored validation value): keras saves on strict improvement, so at the
end the file holds the earliest state attaining the minimum. -/
def chkStep {M : Type} (best : Option (M × ℚ)) (p : M × ℚ) :
    Option (M × ℚ) :=
  match best with
  | none => some p
  | some b => if p.2 < b.2 then some p else some b

def bestCheckpoint {M : Type} (traj : List (M × ℚ)) : Option (M × ℚ) :=
  traj.foldl chkStep none

/-- The metric value a train method returns: `load_model` of the checkpoint
file, then evaluate the reloaded model (lines 128–135, 250–258, 490–509) —
a function of the best saved state, not of the last epoch's state. -/
def returnedMetric {M : Type} (eval : M → ℚ) (traj : List (M × ℚ)) :
    Option ℚ :=
  (bestCheckpoint traj).map (fun b => eval b.1)

lemma bestCheckpoint_foldl_spec {M : Type} :
    ∀ (traj : List (M × ℚ)) (acc : Option (M × ℚ)) (b : M × ℚ),
      traj.foldl chkStep acc = some b →
      (b ∈ traj ∨ acc = some b) ∧ (∀ p ∈ traj, b.2 ≤ p.2) ∧
        (∀ a, acc = some a → b.2 ≤ a.2)
  | [], acc, b => by
    intro h
    refine ⟨Or.inr h, by simp, ?_⟩
    intro a ha
    rw [ha] at h
    cases h
    exact le_refl _
  | p :: ts, acc, b => by
    intro h
    rw [List.foldl_cons] at h
    rcases bestCheckpoint_foldl_spec ts (chkStep acc p) b h with ⟨hmem, hts, hacc⟩
    cases acc with
    | none =>
      have hstep : chkStep (none : Option (M × ℚ)) p = some p := rfl
      rw [hstep] at hmem hacc
      have hbp : b.2 ≤ p.2 := hacc p rfl
      refine ⟨?_, ?_, ?_⟩
      · rcases hmem with h1 | h1
        · exact Or.inl (List.mem_cons_of_mem _ h1)
        · cases h1
          exact Or.inl (List.mem_cons_self _ _)
      · intro q hq
        rcases List.mem_cons.mp hq with rfl | hq'
        · exact hbp
        · exact hts q hq'
      · intro a ha
        cases ha
    | some a =>
      have hstep : chkStep (some a) p
          = if p.2 < a.2 then some p else some a := rfl
      rw [hstep] at hmem hacc
      by_cases hlt : p.2 < a.2
      · rw [if_pos hlt] at hmem hacc
        have hbp : b.2 ≤ p.2 := hacc p rfl
        refine ⟨?_, ?_, ?_⟩
        · rcases hmem with h1 | h1
          · exact Or.inl (List.mem_cons_of_mem _ h1)
          · cases h1
            exact Or.inl (List.mem_cons_self _ _)
        · intro q hq
          rcases List.mem_cons.mp hq with rfl | hq'
          · exact hbp
          · exact hts q hq'
        · intro a' ha'
          cases ha'
          exact le_trans hbp (le_of_lt hlt)
      · rw [if_neg hlt] at hmem hacc
        have hba : b.2 ≤ a.2 := hacc a rfl
        refine ⟨?_, ?_, ?_⟩
        · rcases hmem with h1 | h1
          · exact Or.inl (List.mem_cons_of_mem _ h1)
          · exact Or.inr h1
        · intro q hq
          rcases List.mem_cons.mp hq with rfl | hq'
          · exact le_trans hba (le_of_not_lt hlt)
          · exact hts q hq'
        · intro a' ha'
          cases ha'
          exact hba

lemma bestCheckpoint_isSome {M : Type} (traj : List (M × ℚ))
    (h : traj ≠ []) : ∃ b, bestCheckpoint traj = some b := by
  match traj with
  | [] => exact absurd rfl h
  | p :: ts =>
    unfold bestCheckpoint
    rw [List.foldl_cons]
    clear h
    induction ts generalizing p with
    | nil => exact ⟨p, rfl⟩
    | cons q ts ih =>
      rw [List.foldl_cons]
      by_cases hlt : q.2 < p.2
      · simpa [chkStep, hlt] using ih q
      · simpa [chkStep, hlt] using ih p

lemma bestCheckpoint_spec {M : Type} {traj : List (M × ℚ)} {b : M × ℚ}
    (h : bestCheckpoint traj = some b) :
    b ∈ traj ∧ ∀ p ∈ traj, b.2 ≤ p.2 := by
  have := bestCheckpoint_foldl_spec traj none b h
  refine ⟨?_, this.2.1⟩
  rcases this.1 with h1 | h1
  · exact h1
  · cases h1

/-- C4: every validation-based training stage registers a `ModelCheckpoint`
with `save_best_only=True` monitoring the validation metric
(`val_categorical_crossentropy` for classification,
`val_mean_squared_error` for all regression stages), and the metrics a train
method returns are those of the reloaded best checkpoint — the earliest
trajectory state minimising the monitored value — not of the final in-memory
state (the last conjunct exhibits a trajectory where the two differ). -/
theorem C4_best_checkpoint_restoration {M : Type} (ev : M → ℚ)
    (traj : List (M × ℚ)) (h : traj ≠ []) :
    (classificationCheckpoint.monitor = "val_categorical_crossentropy" ∧
     classificationCheckpoint.saveBestOnly = true ∧
     straightRegressionCheckpoint.monitor = "val_mean_squared_error" ∧
     straightRegressionCheckpoint.saveBestOnly = true ∧
     straightRegressionPrunedCheckpoint.monitor = "val_mean_squared_error" ∧
     straightRegressionPrunedCheckpoint.saveBestOnly = true ∧
     fuPhase1Checkpoint.monitor = "val_mean_squared_error" ∧
     fuPhase1Checkpoint.saveBestOnly = true ∧
     fuPhase2Checkpoint.monitor = "val_mean_squared_error" ∧
     fuPhase2Checkpoint.saveBestOnly = true ∧
     fuPrunedCheckpoint.monitor = "val_mean_squared_error" ∧
     fuPrunedCheckpoint.saveBestOnly = true) ∧
    (∃ b, bestCheckpoint traj = some b ∧ b ∈ traj ∧
      (∀ p ∈ traj, b.2 ≤ p.2) ∧ returnedMetric ev traj = some (ev b.1)) ∧
    (∃ t : List (ℚ × ℚ), t ≠ [] ∧
      returnedMetric (fun m => m) t ≠ t.getLast?.map (fun p => p.1)) := by
  refine ⟨⟨rfl, rfl, rfl, rfl, rfl, rfl, rfl, rfl, rfl, rfl, rfl, rfl⟩,
    ?_, ⟨[(5, 1), (7, 2)], by decide, by decide⟩⟩
  obtain ⟨b, hb⟩ := bestCheckpoint_isSome traj h
  obtain ⟨hmem, hmin⟩ := bestCheckpoint_spec hb
  exact ⟨b, hb, hmem, hmin, by rw [returnedMetric, hb]; rfl⟩

/-- Witness for C4 at a one-epoch trajectory. -/
theorem C4_best_checkpoint_restoration_witness :
    ∃ b, bestCheckpoint [((0 : ℚ), (0 : ℚ))] = some b ∧
      b ∈ [((0 : ℚ), (0 : ℚ))] ∧
      (∀ p ∈ [((0 : ℚ), (0 : ℚ))], b.2 ≤ p.2) ∧
      returnedMetric (fun m => m) [((0 : ℚ), (0 : ℚ))] = some b.1 :=
  (C4_best_checkpoint_restoration (fun m => m) [((0 : ℚ), (0 : ℚ))]
    (by decide)).2.1

/-- A kernel regularizer attached to a Dense layer. -/
inductive KernelReg
  | elasticNet (l1 l2 : ℚ)
  | ridge (c : ℚ)
deriving DecidableEq

/-- One Dense layer of a built architecture: name, number of units,
activation, `input_shape` (first layer only), kernel regularizer, bias
regularizer (l2 coefficient; `W6_regr`'s is commented out in the source),
and the `trainable` flag (keras default `True`). -/
structure LayerSpec where
  name : String
  units : ℕ
  activation : String
  inputShape : Option ℕ
  kernelReg : KernelReg
  biasReg : Option ℚ
  trainable : Bool
deriving DecidableEq

/-- The architecture of `ClassificationPreTrain.__init__` (lines 68–92). -/
def classificationArch (act : String) (l1 l2 : ℚ)
    (input_dim output_dim : ℕ) : List LayerSpec :=
  [⟨"W1", 512, act, some input_dim, .elasticNet l1 l2, some l2, true⟩,
   ⟨"W2", 128, act, none, .ridge l2, some l2, true⟩,
   ⟨"bottleneck", 2, "linear", none, .ridge l2, some l2, true⟩,
   ⟨"W4", 128, act, none, .ridge l2, some l2, true⟩,
   ⟨"W5", 512, act, none, .ridge l2, some l2, true⟩,
   ⟨"W6_class", output_dim, "softmax", none, .ridge l2, some l2, true⟩]

/-- The architecture of `StraightRegression.__init__` (lines 169–189). -/
def regressionArch (act : String) (l1 l2 : ℚ)
    (input_dim output_dim : ℕ) : List LayerSpec :=
  [⟨"W1", 512, act, some input_dim, .elasticNet l1 l2, some l2, true⟩,
   ⟨"W2", 128, act, none, .ridge l2, some l2, true⟩,
   ⟨"bottleneck", 2, "linear", none, .ridge l2, some l2, true⟩,
   ⟨"W4", 128, act, none, .ridge l2, some l2, true⟩,
   ⟨"W5", 512, act, none, .ridge l2, some l2, true⟩,
   ⟨"W6_regr", output_dim, "linear", none, .ridge l2, none, true⟩]

/-- The architecture of `FreezeUnfreeze.__init__` (lines 381–402): the same
six regression layers, with `trainable = self.unfreeze[i]`. -/
def freezeUnfreezeArch (act : String) (l1 l2 : ℚ)
    (input_dim output_dim : ℕ) (unfreeze : Fin 6 → Bool) : List LayerSpec :=
  [⟨"W1", 512, act, some input_dim, .elasticNet l1 l2, some l2, unfreeze 0⟩,
   ⟨"W2", 128, act, none, .ridge l2, some l2, unfreeze 1⟩,
   ⟨"bottleneck", 2, "linear", none, .ridge l2, some l2, unfreeze 2⟩,
   ⟨"W4", 128, act, none, .ridge l2, some l2, unfreeze 3⟩,
   ⟨"W5", 512, act, none, .ridge l2, some l2, unfreeze 4⟩,
   ⟨"W6_regr", output_dim, "linear", none, .ridge l2, none, unfreeze 5⟩]

/-- The architecture of every pruned rebuild (lines 270–290, 520–540,
662–682): `input_shape=(25,)`, first layer `W1_25` regularised by
`ElasticNet(l1=0, l2=self.l2)`. -/
def prunedArch (act : String) (l2 : ℚ) (output_dim : ℕ) : List LayerSpec :=
  [⟨"W1_25", 512, act, some 25, .elasticNet 0 l2, some l2, true⟩,
   ⟨"W2", 128, act, none, .ridge l2, some l2, true⟩,
   ⟨"bottleneck", 2, "linear", none, .ridge l2, some l2, true⟩,
   ⟨"W4", 128, act, none, .ridge l2, some l2, true⟩,
   ⟨"W5", 512, act, none, .ridge l2, some l2, true⟩,
   ⟨"W6_regr", output_dim, "linear", none, .ridge l2, none, true⟩]

/-- The `for layer in self.m.layers: layer.trainable = True` loop
(lines 461–462 and 635–636). -/
def unfreezeAllLayers (a : List LayerSpec) : List LayerSpec :=
  a.map (fun l => { l with trainable := true })

/-- Configuration of a `model.compile` call: loss and Adam learning rate. -/
structure CompileCfg where
  loss : String
  lr : ℚ
deriving DecidableEq

/-- The model state (layers, Adam learning rate) just before the first fit
and just before the second fit of `FreezeUnfreeze.train` (lines 453–486):
phase 1 runs the constructor's architecture (trainable flags from
`unfreeze`, compiled at `lr`, lines 381–412); phase 2 sets every layer
trainable and recompiles with Adam at `self.lr/2` (lines 461–468). -/
def fuTrainPhases (act : String) (l1 l2 : ℚ) (input_dim output_dim : ℕ)
    (unfreeze : Fin 6 → Bool) (lr : ℚ) :
    (List LayerSpec × CompileCfg) × (List LayerSpec × CompileCfg) :=
  let arch := freezeUnfreezeArch act l1 l2 input_dim output_dim unfreeze
  ((arch, ⟨"mean_squared_error", lr⟩),
   (unfreezeAllLayers arch, ⟨"mean_squared_error", lr / 2⟩))

/-- The same two phase states in `FreezeUnfreeze.train_full_dataset`
(lines 629–648): identical freeze-then-unfreeze transitions. -/
def fuTrainFullDatasetPhases (act : String) (l1 l2 : ℚ)
    (input_dim output_dim : ℕ) (unfreeze : Fin 6 → Bool) (lr : ℚ) :
    (List LayerSpec × CompileCfg) × (List LayerSpec × CompileCfg) :=
  let arch := freezeUnfreezeArch act l1 l2 input_dim output_dim unfreeze
  ((arch, ⟨"mean_squared_error", lr⟩),
   (unfreezeAllLayers arch, ⟨"mean_squared_error", lr / 2⟩))

/-- The default `LayerSpec` used with `List.getD`. -/
def defaultLayer : LayerSpec := ⟨"", 0, "", none, .ridge 0, none, true⟩

/-- C5: in `FreezeUnfreeze`, during the first training phase layer `i` is
trainable iff `unfreeze[i]` (for the six layers in order); before the second
phase every layer is set `trainable=True` and the model is recompiled with
Adam at `self.lr/2`; and `train_full_dataset` performs exactly the same
two-stage transitions. -/
theorem C5_freeze_then_unfreeze (act : String) (l1 l2 lr : ℚ)
    (input_dim output_dim : ℕ) (unfreeze : Fin 6 → Bool) :
    (∀ i : Fin 6,
      ((fuTrainPhases act l1 l2 input_dim output_dim unfreeze lr).1.1.getD
          i defaultLayer).trainable = unfreeze i) ∧
    (∀ l ∈ (fuTrainPhases act l1 l2 input_dim output_dim unfreeze lr).2.1,
      l.trainable = true) ∧
    (fuTrainPhases act l1 l2 input_dim output_dim unfreeze lr).2.2.lr
      = lr / 2 ∧
    fuTrainFullDatasetPhases act l1 l2 input_dim output_dim unfreeze lr
      = fuTrainPhases act l1 l2 input_dim output_dim unfreeze lr := by
  refine ⟨?_, ?_, rfl, rfl⟩
  · intro i
    fin_cases i <;> rfl
  · intro l hl
    simp only [fuTrainPhases, unfreezeAllLayers, List.mem_map] at hl
    obtain ⟨a, _, rfl⟩ := hl
    rfl

/-- One `model.fit` call of a training schedule: its epoch count, the early
stopping patience in force, and whether its input matrices are restricted to
the pruned gene columns. -/
structure FitCall where
  epochs : ℕ
  patience : ℕ
  prunedInput : Bool
deriving DecidableEq

/-- The fit schedule of `StraightRegression.train`: the first fit runs
`epochs` epochs at `patience` when `prune=False` and `2*epochs` at
`2*patience` when `prune=True` (lines 223–226 and 237–244); with
`prune=True` a second, pruned-input fit of `2*epochs` at `2*patience`
follows (lines 297–312). -/
def straightRegressionFits (epochs patience : ℕ) (prune : Bool) :
    List FitCall :=
  [⟨if prune then 2 * epochs else epochs,
    if prune then 2 * patience else patience, false⟩]
    ++ (if prune then [⟨2 * epochs, 2 * patience, true⟩] else [])

/-- The fit schedule of `FreezeUnfreeze.train`: a frozen fit and an unfrozen
fit of `epochs` epochs each at `patience` (lines 441–455 and 471–486), then
with `prune=True` a pruned-input fit of `2*epochs` at `2*patience`
(lines 547–562). -/
def freezeUnfreezeFits (epochs patience : ℕ) (prune : Bool) :
    List FitCall :=
  [⟨epochs, patience, false⟩, ⟨epochs, patience, false⟩]
    ++ (if prune then [⟨2 * epochs, 2 * patience, true⟩] else [])

/-- C6: `StraightRegression.train` runs one fit of `epochs` when
`prune=False`, and a fit of `2*epochs` followed by a pruned-model fit of
`2*epochs` when `prune=True`; `FreezeUnfreeze.train` always runs two fits of
`epochs` each, plus one pruned-model fit of `2*epochs` when `prune=True`;
every prune-related fit (all fits of a prune run that are prune-related,
in particular every pruned-input fit) uses doubled patience. -/
theorem C6_fit_schedules (epochs patience : ℕ) :
    straightRegressionFits epochs patience false
      = [⟨epochs, patience, false⟩] ∧
    straightRegressionFits epochs patience true
      = [⟨2 * epochs, 2 * patience, false⟩,
         ⟨2 * epochs, 2 * patience, true⟩] ∧
    freezeUnfreezeFits epochs patience false
      = [⟨epochs, patience, false⟩, ⟨epochs, patience, false⟩] ∧
    freezeUnfreezeFits epochs patience true
      = [⟨epochs, patience, false⟩, ⟨epochs, patience, false⟩,
         ⟨2 * epochs, 2 * patience, true⟩] ∧
    (∀ f ∈ straightRegressionFits epochs patience true
        ++ freezeUnfreezeFits epochs patience true,
      f.prunedInput = true → f.patience = 2 * patience) := by
  refine ⟨rfl, rfl, rfl, rfl, ?_⟩
  intro f hf hp
  simp only [straightRegressionFits, freezeUnfreezeFits, if_true,
    List.singleton_append, List.cons_append, List.nil_append,
    List.mem_append, List.mem_cons, List.mem_singleton,
    List.not_mem_nil, or_false] at hf
  rcases hf with rfl | rfl | rfl | rfl | rfl <;> first | rfl | cases hp

/-- C7: every architecture the system constructs — classification,
straight regression, freeze/unfreeze, and every pruned rebuild — has unit
counts `[512, 128, 2, 128, 512, output_dim]`, with the third layer a Dense
layer named `bottleneck` of exactly 2 units and linear activation between
the `(512, 128)` encoder and the `(128, 512)` decoder. -/
theorem C7_bottleneck_always_2_units (act : String) (l1 l2 : ℚ)
    (input_dim output_dim : ℕ) (unfreeze : Fin 6 → Bool) :
    ((classificationArch act l1 l2 input_dim output_dim).map LayerSpec.units
        = [512, 128, 2, 128, 512, output_dim] ∧
      ((classificationArch act l1 l2 input_dim output_dim).getD 2
          defaultLayer).name = "bottleneck" ∧
      ((classificationArch act l1 l2 input_dim output_dim).getD 2
          defaultLayer).units = 2 ∧
      ((classificationArch act l1 l2 input_dim output_dim).getD 2
          defaultLayer).activation = "linear") ∧
    ((regressionArch act l1 l2 input_dim output_dim).map LayerSpec.units
        = [512, 128, 2, 128, 512, output_dim] ∧
      ((regressionArch act l1 l2 input_dim output_dim).getD 2
          defaultLayer).name = "bottleneck" ∧
      ((regressionArch act l1 l2 input_dim output_dim).getD 2
          defaultLayer).units = 2 ∧
      ((regressionArch act l1 l2 input_dim output_dim).getD 2
          defaultLayer).activation = "linear") ∧
    ((freezeUnfreezeArch act l1 l2 input_dim output_dim unfreeze).map
          LayerSpec.units = [512, 128, 2, 128, 512, output_dim] ∧
      ((freezeUnfreezeArch act l1 l2 input_dim output_dim unfreeze).getD 2
          defaultLayer).name = "bottleneck" ∧
      ((freezeUnfreezeArch act l1 l2 input_dim output_dim unfreeze).getD 2
          defaultLayer).units = 2 ∧
      ((freezeUnfreezeArch act l1 l2 input_dim output_dim unfreeze).getD 2
          defaultLayer).activation = "linear") ∧
    ((prunedArch act l2 output_dim).map LayerSpec.units
        = [512, 128, 2, 128, 512, output_dim] ∧
      ((prunedArch act l2 output_dim).getD 2 defaultLayer).name
        = "bottleneck" ∧
      ((prunedArch act l2 output_dim).getD 2 defaultLayer).units = 2 ∧
      ((prunedArch act l2 output_dim).getD 2 defaultLayer).activation
        = "linear") :=
  ⟨⟨rfl, rfl, rfl, rfl⟩, ⟨rfl, rfl, rfl, rfl⟩, ⟨rfl, rfl, rfl, rfl⟩,
   ⟨rfl, rfl, rfl, rfl⟩⟩

/-- The epoch counts of the fits `FreezeUnfreeze.train_full_dataset`
performs (lines 629–630, 647–648, 693–694): both stages always run, and the
pruned fit runs `2*epochs` when `prune=True`.  No early stopping is used. -/
def fuTrainFullDatasetFitEpochs (epochs : ℕ) (prune : Bool) : List ℕ :=
  [epochs, epochs] ++ (if prune then [2 * epochs] else [])

/-- Return value of `FreezeUnfreeze.train_full_dataset` (lines 652–697),
where `h1`, `h2`, `h3` are the `r2_score` histories of the three fits: the
concatenated training-loss history is returned only inside the
`prune=True` branch; with `prune=False` the body falls off the end, i.e.
returns `None`. -/
def trainFullDatasetResult (prune : Bool) (h1 h2 h3 : List ℚ) :
    Option (List ℚ) :=
  if prune then some ((h1 ++ h2) ++ h3) else none

/-- C8: `FreezeUnfreeze.train_full_dataset` with `prune=False` returns
`None`, although both training stages are performed in either case; the
history is returned only in the `prune=True` branch. -/
theorem C8_train_full_dataset_returns_none (epochs : ℕ)
    (h1 h2 h3 : List ℚ) :
    trainFullDatasetResult false h1 h2 h3 = none ∧
    trainFullDatasetResult true h1 h2 h3 = some ((h1 ++ h2) ++ h3) ∧
    fuTrainFullDatasetFitEpochs epochs false = [epochs, epochs] ∧
    fuTrainFullDatasetFitEpochs epochs true
      = [epochs, epochs, 2 * epochs] :=
  ⟨rfl, rfl, rfl, rfl⟩

lemma sumSq_cons (a : ℚ) (l : List ℚ) :
    sumSq (a :: l) = a * a + sumSq l := by
  simp [sumSq]

lemma sumSq_nonneg (v : List ℚ) : 0 ≤ sumSq v := by
  induction v with
  | nil => simp [sumSq]
  | cons a l ih =>
    rw [sumSq_cons]
    have := mul_self_nonneg a
    linarith

lemma sumSq_eq_zero_iff (v : List ℚ) : sumSq v = 0 ↔ ∀ a ∈ v, a = 0 := by
  induction v with
  | nil => simp [sumSq]
  | cons a l ih =>
    rw [sumSq_cons]
    constructor
    · intro h
      have h1 : 0 ≤ a * a := mul_self_nonneg a
      have h2 : 0 ≤ sumSq l := sumSq_nonneg l
      have ha : a * a = 0 := by linarith
      have hl : sumSq l = 0 := by linarith
      intro b hb
      rcases List.mem_cons.mp hb with rfl | hb'
      · exact mul_self_eq_zero.mp ha
      · exact (ih.mp hl) b hb'
    · intro h
      have ha : a = 0 := h a (List.mem_cons_self _ _)
      have hl : sumSq l = 0 := ih.mpr (fun b hb => h b (List.mem_cons_of_mem _ hb))
      rw [ha, hl]
      ring

/-- The residual `tf.add(y_truth, -y_pred)` of `r2_score` (line 25). -/
def residual (y p : List ℚ) : List ℚ :=
  List.zipWith (fun a b => a + (-b)) y p

/-- The denominator `tf.reduce_sum(tf.square(y_truth))` /
`np.sum(y_truth**2)` both r2 formulas divide by. -/
def r2Denom (y : List ℚ) : ℚ := sumSq y

/-- `r2_score` (lines 23–26), with the unguarded zero-denominator case made
explicit: `none` models the division whose denominator is zero (numpy/TF
produce a non-number there, so the computation is not total). -/
def r2_score (y p : List ℚ) : Option ℚ :=
  if r2Denom y = 0 then none
  else some (1 - sumSq (residual y p) / r2Denom y)

/-- The inline computation `1 - np.sum((y - pred)**2) / np.sum(y**2)` used
for every reported `r2_*` value of `StraightRegression.train` and
`FreezeUnfreeze.train` (lines 257–258, 326–329, 506–509, 575–578), with the
same explicit zero-denominator case. -/
def reportedR2 (y pred : List ℚ) : Option ℚ :=
  if sumSq y = 0 then none
  else some (1 - sumSq (List.zipWith (fun a b => a - b) y pred) / sumSq y)

/-- C9: `r2_score` computes `1 - Σ(y_truth - y_pred)² / Σ y_truth²`; every
reported `r2_*` value uses the same formula; the division is unguarded and
its denominator `Σ y_truth²` is zero exactly when the target array is all
zeros, where the computation is undefined. -/
theorem C9_r2_formula_and_zero_denominator (y p : List ℚ) :
    reportedR2 y p = r2_score y p ∧
    (r2_score y p = none ↔ r2Denom y = 0) ∧
    (r2Denom y = 0 ↔ ∀ a ∈ y, a = 0) := by
  refine ⟨?_, ?_, sumSq_eq_zero_iff y⟩
  · have hfun : (fun a b : ℚ => a - b) = (fun a b : ℚ => a + (-b)) := by
      funext a b
      exact sub_eq_add_neg a b
    rw [reportedR2, r2_score, residual, hfun, r2Denom]
  · rw [r2_score]
    split
    · simp_all
    · simp_all

/-- `ElasticNet`, the first-layer kernel regularizer (lines 28–39). -/
structure ElasticNetReg where
  l1 : ℚ
  l2 : ℚ
deriving DecidableEq

/-- `ElasticNet.__call__` (lines 34–36):
`l2 * tf.reduce_sum(tf.square(x)) + l1 * tf.reduce_sum(tf.norm(x, 2, axis=1))`,
i.e. ridge on all entries plus group lasso over the input-feature rows. -/
noncomputable def ElasticNetReg.penalty (r : ElasticNetReg) (x : Mat) : ℝ :=
  (r.l2 : ℝ) * (((x.map sumSq).sum : ℚ) : ℝ)
    + (r.l1 : ℝ) * (x.map rowNorm).sum

/-- `ElasticNet.get_config` (lines 38–39). -/
def ElasticNetReg.get_config (r : ElasticNetReg) : ℚ × ℚ := (r.l1, r.l2)

/-- Keras reconstructing a regularizer from its config,
`ElasticNet(l1=c[0], l2=c[1])`. -/
def ElasticNetReg.ofConfig (c : ℚ × ℚ) : ElasticNetReg := ⟨c.1, c.2⟩

/-- C10: the ElasticNet penalty is `l2 · Σ x² + l1 · Σ_rows ‖row‖₂`; a
regularizer reconstructed from its own `get_config` is the original one and
computes the same penalty on every matrix; with `l1 = 0` the group-lasso
term vanishes; and every pruned rebuild's first layer carries
`ElasticNet(l1=0, l2=self.l2)`. -/
theorem C10_elasticnet_roundtrip (r : ElasticNetReg) (x : Mat)
    (act : String) (l2 : ℚ) (output_dim : ℕ) :
    ElasticNetReg.ofConfig r.get_config = r ∧
    (ElasticNetReg.ofConfig r.get_config).penalty x = r.penalty x ∧
    r.penalty x = (r.l2 : ℝ) * (((x.map sumSq).sum : ℚ) : ℝ)
      + (r.l1 : ℝ) * (x.map (fun row => Real.sqrt ((sumSq row : ℚ) : ℝ))).sum ∧
    (ElasticNetReg.mk 0 l2).penalty x
      = (l2 : ℝ) * (((x.map sumSq).sum : ℚ) : ℝ) ∧
    ((prunedArch act l2 output_dim).getD 0 defaultLayer).kernelReg
      = KernelReg.elasticNet 0 l2 := by
  refine ⟨rfl, rfl, rfl, ?_, rfl⟩
  simp [ElasticNetReg.penalty]

end SparseBottleneck
